import Mathlib

/-!
Shallow embedding of the CoAP message-processing engine of `src/net.c`
(libcoap, non-Contiki profile), together with proofs about the spec's
claims on it.

Modelling conventions:
* C pointers that the code dereferences unconditionally are modelled as
  plain values; the `!p` null guards of the source are then vacuously
  satisfied and noted in comments where they occur.
* The singly-linked queues (`coap_queue_t*`) are modelled as `List CoapNode`.
* Machine integers are `Nat` (all source values in scope are unsigned and
  small); `unsigned char` reads are wrapped with `% 256`.
* Injected collaborators (hash primitive, PRNG output, clock value,
  `sendto` success, allocator success) are explicit parameters.
-/

/-- Address family discriminant of a peer socket address
(`peer->addr.sa.sa_family` in `coap_transaction_id`): the source
distinguishes `AF_INET`, `AF_INET6` and everything else (`default:`). -/
inductive AddrFamily where
  | inet
  | inet6
  | other
  deriving DecidableEq

/-- Peer endpoint (`coap_address_t`).  The byte views consumed by
`coap_hash` are kept per family: the whole `sockaddr` for IPv4, and the
`sin6_port` / `sin6_addr` fields for IPv6. -/
structure CoapAddress where
  family : AddrFamily
  sa_bytes : List Nat
  sin6_port_bytes : List Nat
  sin6_addr_bytes : List Nat
  deriving DecidableEq

/-- CoAP message type field (`hdr->type`). -/
inductive CoapMsgType where
  | CON
  | NON
  | ACK
  | RST
  deriving DecidableEq

/-- One option of a PDU: option number (`opt_iter.type`) and value bytes. -/
structure CoapOption where
  type : Nat
  value : List Nat
  deriving DecidableEq

/-- Fixed PDU header (`coap_hdr_t`): version, type, code, message id. -/
structure CoapHdr where
  version : Nat
  type : CoapMsgType
  code : Nat
  id : Nat
  deriving DecidableEq

/-- A typed PDU (`coap_pdu_t`): header, option list in stored order,
payload bytes. -/
structure CoapPDU where
  hdr : CoapHdr
  options : List CoapOption
  payload : List Nat
  deriving DecidableEq

/-- Queue node (`coap_queue_t`): scheduled time `t`, randomized base
`timeout`, retransmission counter, peer, transaction id, owned PDU.
The `next` pointer is represented by list structure. -/
structure CoapNode where
  t : Nat
  timeout : Nat
  retransmit_cnt : Nat
  remote : CoapAddress
  id : Nat
  pdu : CoapPDU
  deriving DecidableEq

def COAP_DEFAULT_VERSION : Nat := 1

def COAP_INVALID_TID : Nat := 0

def COAP_DEFAULT_MAX_RETRANSMIT : Nat := 4

def COAP_DEFAULT_RESPONSE_TIMEOUT : Nat := 2

/-- Modelled from the spec: the option filter is a "fixed-width bit vector
indexed by option number" (§3, §4.F); its width constant lives in
`option.h`, which is not under `src/`.  The largest known option number
bound is modelled as 63. -/
def COAP_MAX_OPT : Nat := 63

/-- Modelled from the spec: option numbers come from `pdu.h` (not under
`src/`); values follow the CoAP draft registry this code targets.
Content-Type is option number 1. -/
def COAP_OPTION_CONTENT_TYPE : Nat := 1

/-- Modelled from the spec: Token is option number 11 (`pdu.h`, not under
`src/`). -/
def COAP_OPTION_TOKEN : Nat := 11

/-- Modelled from the spec: media type `text/plain` is 0 (`pdu.h`, not
under `src/`). -/
def COAP_MEDIATYPE_TEXT_PLAIN : Nat := 0

/-- Modelled from the spec: the `COAP_RESPONSE_CODE` macro of `pdu.h`
(not under `src/`) realises the CoAP "c.dd" response-code encoding of
§3 of the spec. -/
def COAP_RESPONSE_CODE (n : Nat) : Nat := ((n / 100) <<< 5) ||| (n % 100)

/-- Modelled from the spec: `COAP_MESSAGE_IS_REQUEST` of `pdu.h` (not
under `src/`); spec §3: codes 1–31 are request methods. -/
def COAP_MESSAGE_IS_REQUEST (h : CoapHdr) : Bool :=
  decide (1 ≤ h.code ∧ h.code ≤ 31)

/-- Modelled from the spec: `COAP_MESSAGE_IS_RESPONSE` of `pdu.h` (not
under `src/`); spec §3: codes 64–191 are response codes. -/
def COAP_MESSAGE_IS_RESPONSE (h : CoapHdr) : Bool :=
  decide (64 ≤ h.code ∧ h.code ≤ 191)

/-- Option filter (`coap_opt_filter_t`), modelled as the set of option
numbers whose bit is set, as a list. -/
abbrev CoapOptFilter := List Nat

/-- Modelled from the spec: `coap_option_getb` of `option.h` (not under
`src/`).  Returns -1 when the option number exceeds the bit-vector
width, else 1/0 for bit set/clear (spec §4.F and the comment in
`coap_option_check_critical`). -/
def coap_option_getb (f : CoapOptFilter) (t : Nat) : Int :=
  if COAP_MAX_OPT < t then -1 else if t ∈ f then 1 else 0

/-- Modelled from the spec: `coap_option_setb` of `option.h` (not under
`src/`).  Returns -1 when the number cannot be recorded (beyond the
vector width), else sets the bit. -/
def coap_option_setb (f : CoapOptFilter) (t : Nat) : Int × CoapOptFilter :=
  if COAP_MAX_OPT < t then (-1, f) else (0, t :: f)

/-- Modelled from the spec: `coap_option_clrb` of `option.h` (not under
`src/`): clears the bit for `t`. -/
def coap_option_clrb (f : CoapOptFilter) (t : Nat) : CoapOptFilter :=
  f.filter (fun x => decide (x ≠ t))

/-- Modelled from the spec: `coap_check_option` (option iterator
collaborator, §6): first option of the PDU with the given number. -/
def coap_check_option (pdu : CoapPDU) (t : Nat) : Option CoapOption :=
  pdu.options.find? (fun o => decide (o.type = t))

/-- One `unsigned char` read of the hash accumulator `h[i]`. -/
def coap_key_byte (h : List Nat) (i : Nat) : Nat := h.getD i 0 % 256

/-- The id formed from the accumulator:
`((h[0] << 8) | h[1]) ^ ((h[2] << 8) | h[3])`. -/
def coap_tid_of_key (h : List Nat) : Nat :=
  ((coap_key_byte h 0 <<< 8) ||| coap_key_byte h 1) ^^^
    ((coap_key_byte h 2 <<< 8) ||| coap_key_byte h 3)

/-- Token absorption step of `coap_transaction_id`: if a Token option is
present, absorb its value bytes into the accumulator. -/
def coap_tid_absorb_token (hash : List Nat → List Nat → List Nat)
    (pdu : CoapPDU) (h : List Nat) : List Nat :=
  match coap_check_option pdu COAP_OPTION_TOKEN with
  | some o => hash o.value h
  | none => h

/-- `coap_transaction_id` (src/net.c:321-357).  The injected `coap_hash`
primitive is a parameter `hash : bytes → state → state`.  The C function
writes through `*id`; this is modelled by taking the current value of
`*id` and returning the value it holds afterwards — for an unknown
address family the source `return`s without writing, so the input value
is returned unchanged. -/
def coap_transaction_id (hash : List Nat → List Nat → List Nat)
    (peer : CoapAddress) (pdu : CoapPDU) (id : Nat) : Nat :=
  let h0 : List Nat := [0, 0, 0, 0]
  match peer.family with
  | AddrFamily.inet =>
      coap_tid_of_key (coap_tid_absorb_token hash pdu (hash peer.sa_bytes h0))
  | AddrFamily.inet6 =>
      coap_tid_of_key (coap_tid_absorb_token hash pdu
        (hash peer.sin6_addr_bytes (hash peer.sin6_port_bytes h0)))
  | AddrFamily.other => id

/-- The do-while search loop of `coap_insert_node` (src/net.c:82-90):
advance while the next element `q` exists and `order(node, q) >= 0`,
then insert `node` before `q`. -/
def coap_insert_loop (order : CoapNode → CoapNode → Int) (node : CoapNode) :
    List CoapNode → List CoapNode
  | [] => [node]
  | h :: rest =>
      if 0 ≤ order node h then h :: coap_insert_loop order node rest
      else node :: h :: rest

/-- `coap_insert_node` (src/net.c:60-91).  The `!queue || !node` guard is
vacuous in the value model; the function always succeeds (returns 1). -/
def coap_insert_node (order : CoapNode → CoapNode → Int)
    (q : List CoapNode) (node : CoapNode) : List CoapNode :=
  match q with
  | [] => [node]
  | h :: rest =>
      if order node h < 0 then node :: h :: rest
      else h :: coap_insert_loop order node rest

/-- `coap_pop_next` (src/net.c:146-157): detach the queue head. -/
def coap_pop_next : List CoapNode → List CoapNode × Option CoapNode
  | [] => ([], none)
  | h :: rest => (rest, some h)

/-- `coap_peek_next` (src/net.c:138-144). -/
def coap_peek_next (q : List CoapNode) : Option CoapNode := q.head?

/-- `coap_remove_from_queue` (src/net.c:616-652): detach the first node
whose `id` matches; `none` when no node matches (the C function then
returns 0 without writing `*node`). -/
def coap_remove_from_queue : List CoapNode → Nat → Option (List CoapNode × CoapNode)
  | [], _ => none
  | h :: rest, tid =>
      if tid = h.id then some (rest, h)
      else
        match coap_remove_from_queue rest tid with
        | some (q, m) => some (h :: q, m)
        | none => none

/-- `coap_find_transaction` (src/net.c:654-660). -/
def coap_find_transaction : List CoapNode → Nat → Option CoapNode
  | [], _ => none
  | h :: rest, tid => if h.id = tid then some h else coap_find_transaction rest tid

/-- `_order_timestamp` (src/net.c:438-441).  The `lhs && rhs` null
guards are vacuous in the value model. -/
def _order_timestamp (lhs rhs : CoapNode) : Int :=
  if lhs.t < rhs.t then -1 else 1

/-- `_order_transaction_id` (src/net.c:506-512), transcribed literally:
the source compares `lhs->id < lhs->id` (a self-comparison).  The
`lhs && rhs && lhs->pdu && rhs->pdu` guards are vacuous in the value
model. -/
def _order_transaction_id (lhs rhs : CoapNode) : Int :=
  if lhs.id < lhs.id then -1 else 1

/-- `coap_send_impl` (src/net.c:361-384, non-Contiki).  `sendOk` models
whether `sendto` reported success (`bytes_written >= 0`); the local `id`
starts as `COAP_INVALID_TID` and is passed to `coap_transaction_id` only
on success.  The `free_pdu` branch only releases memory and has no
observable effect in the value model. -/
def coap_send_impl (hash : List Nat → List Nat → List Nat) (sendOk : Bool)
    (dst : CoapAddress) (pdu : CoapPDU) : Nat :=
  if sendOk then coap_transaction_id hash dst pdu COAP_INVALID_TID
  else COAP_INVALID_TID

/-- `coap_send` (src/net.c:409-414): `coap_send_impl` with `free_pdu = 1`. -/
def coap_send (hash : List Nat → List Nat → List Nat) (sendOk : Bool)
    (dst : CoapAddress) (pdu : CoapPDU) : Nat :=
  coap_send_impl hash sendOk dst pdu

/-- The randomized initial retransmission timeout computed in
`coap_send_confirmed` (src/net.c:460-462), with `tps` the injected
`COAP_TICKS_PER_SECOND` constant and `r` the PRNG output word. -/
def coap_confirmed_timeout (tps r : Nat) : Nat :=
  COAP_DEFAULT_RESPONSE_TIMEOUT * tps +
    (COAP_DEFAULT_RESPONSE_TIMEOUT >>> 1) * ((tps * (r &&& 255)) >>> 8)

/-- `coap_send_confirmed` (src/net.c:443-473).  `allocOk` models
`coap_new_node` success, `now` the `coap_ticks` reading, `r` the PRNG
output.  In the source, `node->id` is assigned from the `coap_send_impl`
result *after* the node is inserted; the queued node is aliased by the
pointer, so this is modelled by inserting the node already carrying its
final `id` (the insertion position depends only on `t`). -/
def coap_send_confirmed (hash : List Nat → List Nat → List Nat)
    (tps now r : Nat) (allocOk sendOk : Bool) (sendq : List CoapNode)
    (dst : CoapAddress) (pdu : CoapPDU) : List CoapNode × Nat :=
  if allocOk then
    let timeout := coap_confirmed_timeout tps r
    let id := coap_send_impl hash sendOk dst pdu
    let node : CoapNode :=
      { t := now + timeout, timeout := timeout, retransmit_cnt := 0,
        remote := dst, id := id, pdu := pdu }
    (coap_insert_node _order_timestamp sendq node, id)
  else (sendq, COAP_INVALID_TID)

/-- `coap_retransmit` (src/net.c:475-504), acting on a node the driver
has detached from the send queue.  The `!context || !node` guard is
vacuous in the value model.  Below the maximum the counter is
incremented first and the deadline advanced by `timeout << cnt` with the
incremented counter; at the maximum the node (and its PDU) is destroyed,
i.e. it does not reappear in the queue.  As in `coap_send_confirmed`,
`node->id` is assigned from the send result after insertion, modelled by
inserting the updated node. -/
def coap_retransmit (hash : List Nat → List Nat → List Nat) (sendOk : Bool)
    (sendq : List CoapNode) (node : CoapNode) : List CoapNode × Nat :=
  if node.retransmit_cnt < COAP_DEFAULT_MAX_RETRANSMIT then
    let cnt := node.retransmit_cnt + 1
    let id := coap_send_impl hash sendOk node.remote node.pdu
    let node2 : CoapNode :=
      { node with
        retransmit_cnt := cnt
        t := node.t + (node.timeout <<< cnt)
        id := id }
    (coap_insert_node _order_timestamp sendq node2, id)
  else (sendq, COAP_INVALID_TID)

/-- One tick of the external retransmission driver described in spec
§4.E/§4.I: pop the head of the send queue (the node whose deadline
passed) is assumed already done, `coap_retransmit` is called on it, and
the next expired node is popped for the following tick. -/
def retransmit_driver_step (hash : List Nat → List Nat → List Nat)
    (sendOk : Bool) : List CoapNode × Option CoapNode → List CoapNode × Option CoapNode
  | (q, none) => (q, none)
  | (q, some n) => coap_pop_next (coap_retransmit hash sendOk q n).1

/-- The option walk of `coap_option_check_critical` (src/net.c:286-319):
for each option with odd number whose bit is not readable as set in
`known` (`coap_option_getb < 1`, which also covers numbers beyond the
vector width), clear `ok` and record the number in `unknown`; when
recording fails (`coap_option_setb == -1`) the loop breaks. -/
def coap_option_check_critical_loop (known : CoapOptFilter) :
    List CoapOption → CoapOptFilter → Bool × CoapOptFilter
  | [], unknown => (true, unknown)
  | o :: rest, unknown =>
      if o.type &&& 1 = 1 ∧ coap_option_getb known o.type < 1 then
        let s := coap_option_setb unknown o.type
        if s.1 = -1 then (false, unknown)
        else (false, (coap_option_check_critical_loop known rest s.2).2)
      else coap_option_check_critical_loop known rest unknown

/-- `coap_option_check_critical` (src/net.c:286-319): result flag and the
filter of recorded unknown critical options. -/
def coap_option_check_critical (known : CoapOptFilter) (pdu : CoapPDU)
    (unknown : CoapOptFilter) : Bool × CoapOptFilter :=
  coap_option_check_critical_loop known pdu.options unknown

/-- Modelled from the spec: `coap_add_option` of `pdu.c` (not under
`src/`) appends one delta-encoded option to the PDU (§6 option
iterator/builder collaborators). -/
def coap_add_option (p : CoapPDU) (t : Nat) (v : List Nat) : CoapPDU :=
  { p with options := p.options ++ [⟨t, v⟩] }

/-- Modelled from the spec: `coap_add_data` of `pdu.c` (not under
`src/`) appends payload bytes. -/
def coap_add_data (p : CoapPDU) (d : List Nat) : CoapPDU :=
  { p with payload := p.payload ++ d }

/-- Modelled from the spec: `coap_encode_var_bytes` of `encode.h` (not
under `src/`): minimal big-endian byte encoding of a small number. -/
def coap_encode_var_bytes (n : Nat) : List Nat :=
  if n = 0 then [] else if n < 256 then [n] else [n >>> 8, n &&& 255]

/-- Modelled from the spec: `coap_response_phrase` of `pdu.c` (not under
`src/`): the human-readable reason phrase, represented abstractly by a
code-determined byte list. -/
def coap_response_phrase (code : Nat) : List Nat := [code]

/-- The in-place filter preparation of `coap_new_error_response`
(src/net.c:689-690): clear Content-Type, force-set Token. -/
def coap_error_response_opts (opts : CoapOptFilter) : CoapOptFilter :=
  (coap_option_setb (coap_option_clrb opts COAP_OPTION_CONTENT_TYPE)
    COAP_OPTION_TOKEN).2

/-- `coap_new_error_response` (src/net.c:662-720).  `hasPhrase` models
`COAP_ERROR_PHRASE_LENGTH > 0 && coap_response_phrase(code) != NULL`.
Size estimation only affects allocation and is elided; `coap_pdu_init`
is modelled as succeeding (allocation failure would make the result
NULL, which no claim exercises).  The PDU is ACK when the request was
CON, else NON; Content-Type = text/plain is added first (when the
phrase is enabled), then every request option selected by the prepared
filter is copied in the request's stored order, then the phrase is
appended as payload. -/
def coap_new_error_response (hasPhrase : Bool) (request : CoapPDU)
    (code : Nat) (opts : CoapOptFilter) : CoapPDU :=
  let t := if request.hdr.type = CoapMsgType.CON then CoapMsgType.ACK
    else CoapMsgType.NON
  let opts2 := coap_error_response_opts opts
  let r0 : CoapPDU :=
    { hdr := ⟨COAP_DEFAULT_VERSION, t, code, request.hdr.id⟩
      options := []
      payload := [] }
  let r1 := if hasPhrase then
      coap_add_option r0 COAP_OPTION_CONTENT_TYPE
        (coap_encode_var_bytes COAP_MEDIATYPE_TEXT_PLAIN)
    else r0
  let r2 := (request.options.filter
      (fun o => decide (coap_option_getb opts2 o.type = 1))).foldl
    (fun p o => coap_add_option p o.type o.value) r1
  if hasPhrase then coap_add_data r2 (coap_response_phrase code) else r2

/-- The option sequence the spec's round-trip sentence (§8) claims for an
error response built from request `R` with selector `opts`: the Token of
`R` (if any), then the options of `R` named in `opts`, then (when the
phrase is enabled) a Content-Type = text/plain option, in that order.
This definition follows the spec's words, to be compared with
`coap_new_error_response`. -/
def spec_error_response_options (hasPhrase : Bool) (request : CoapPDU)
    (opts : CoapOptFilter) : List CoapOption :=
  (coap_check_option request COAP_OPTION_TOKEN).toList ++
    request.options.filter (fun o => decide (coap_option_getb opts o.type = 1)) ++
    (if hasPhrase then
      [⟨COAP_OPTION_CONTENT_TYPE, coap_encode_var_bytes COAP_MEDIATYPE_TEXT_PLAIN⟩]
    else [])

/-- Observable actions of one `coap_dispatch` iteration. -/
inductive DispatchEvent where
  /-- `coap_send` of a freshly built response PDU to a peer. -/
  | sentPdu (dst : CoapAddress) (pdu : CoapPDU)
  /-- `coap_send_ack` for a confirmable separate response. -/
  | sentAck (dst : CoapAddress)
  /-- the received node was routed to `handle_request`. -/
  | handledRequest (rcvd : CoapNode)
  /-- the context's `response_handler` callback was invoked
  (src/net.c:848-852) with the detached sender PDU (if any), the
  received PDU and the received node's id. -/
  | responseHandler (remote : CoapAddress) (sentp : Option CoapPDU)
      (rcvdp : CoapPDU) (id : Nat)
  deriving DecidableEq

/-- `handle_locally` (src/net.c:855-864): always true. -/
def handle_locally (node : CoapNode) : Bool := true

/-- `handle_response` (src/net.c:839-853) as its event trace: ACK the
peer when the received PDU is confirmable, then invoke the response
callback when one is registered (`hasHandler`). -/
def handle_response (hasHandler : Bool) (sent : Option CoapNode)
    (rcvd : CoapNode) : List DispatchEvent :=
  (if rcvd.pdu.hdr.type = CoapMsgType.CON then [DispatchEvent.sentAck rcvd.remote]
    else []) ++
  (if hasHandler then
    [DispatchEvent.responseHandler rcvd.remote (sent.map (fun n => n.pdu))
      rcvd.pdu rcvd.id]
  else [])

/-- The upper-layer routing block of `coap_dispatch` (src/net.c:938-947). -/
def dispatch_upper (hasHandler : Bool) (sent : Option CoapNode)
    (rcvd : CoapNode) : List DispatchEvent :=
  if handle_locally rcvd then
    if COAP_MESSAGE_IS_REQUEST rcvd.pdu.hdr then [DispatchEvent.handledRequest rcvd]
    else if COAP_MESSAGE_IS_RESPONSE rcvd.pdu.hdr then
      handle_response hasHandler sent rcvd
    else []
  else []

/-- One iteration of the `coap_dispatch` drain loop (src/net.c:866-953)
on the received node `rcvd`, over the current send queue and the
(loop-carried) `opt_filter`.  Returns the send queue, the `opt_filter`
and the event trace after the iteration.  `goto cleanup` paths produce
no further events (node destruction is memory-only). -/
def coap_dispatch_step (hasPhrase hasHandler : Bool)
    (known optFilter : CoapOptFilter) (sendq : List CoapNode)
    (rcvd : CoapNode) : List CoapNode × CoapOptFilter × List DispatchEvent :=
  if rcvd.pdu.hdr.version ≠ COAP_DEFAULT_VERSION then (sendq, optFilter, [])
  else
    match rcvd.pdu.hdr.type with
    | CoapMsgType.ACK =>
        match coap_remove_from_queue sendq rcvd.id with
        | some (q2, m) =>
            if rcvd.pdu.hdr.code = 0 then (q2, optFilter, [])
            else (q2, optFilter, dispatch_upper hasHandler (some m) rcvd)
        | none =>
            if rcvd.pdu.hdr.code = 0 then (sendq, optFilter, [])
            else (sendq, optFilter, dispatch_upper hasHandler none rcvd)
    | CoapMsgType.RST =>
        match coap_remove_from_queue sendq rcvd.id with
        | some (q2, m) => (q2, optFilter, dispatch_upper hasHandler (some m) rcvd)
        | none => (sendq, optFilter, dispatch_upper hasHandler none rcvd)
    | CoapMsgType.NON =>
        let c := coap_option_check_critical known rcvd.pdu optFilter
        if c.1 = false then (sendq, c.2, [])
        else (sendq, c.2, dispatch_upper hasHandler none rcvd)
    | CoapMsgType.CON =>
        let c := coap_option_check_critical known rcvd.pdu optFilter
        if c.1 = false then
          let response :=
            coap_new_error_response hasPhrase rcvd.pdu (COAP_RESPONSE_CODE 402) c.2
          (sendq, coap_error_response_opts c.2,
            [DispatchEvent.sentPdu rcvd.remote response])
        else (sendq, c.2, dispatch_upper hasHandler none rcvd)

/-- `coap_dispatch` (src/net.c:866-953): drain the receive queue in
order, threading the send queue and the function-scoped `opt_filter`,
concatenating the event traces. -/
def coap_dispatch (hasPhrase hasHandler : Bool) (known : CoapOptFilter)
    (sendq : List CoapNode) (recvq : List CoapNode) :
    List CoapNode × List DispatchEvent :=
  let r := recvq.foldl
    (fun acc rcvd =>
      let s := coap_dispatch_step hasPhrase hasHandler known acc.2.1 acc.1 rcvd
      (s.1, s.2.1, acc.2.2 ++ s.2.2))
    (sendq, ([] : CoapOptFilter), ([] : List DispatchEvent))
  (r.1, r.2.2)

/-- `coap_can_exit` (src/net.c:955-958). -/
def coap_can_exit (sendq recvq : List CoapNode) : Bool :=
  decide (recvq = [] ∧ sendq = [])

/-! Concrete sample values used to evaluate the definitions in witnesses
and counterexamples. -/

/-- A trivial instantiation of the injected hash: absorb nothing. -/
def hash0 : List Nat → List Nat → List Nat := fun _ h => h

/-- A constant instantiation of the injected hash whose accumulator
yields transaction id 256. -/
def hash1 : List Nat → List Nat → List Nat := fun _ _ => [1, 0, 0, 0]

/-- An IPv4 peer. -/
def addr4 : CoapAddress := ⟨AddrFamily.inet, [192, 0, 2, 1, 22, 51], [], []⟩

/-- A peer of an unknown address family. -/
def addrX : CoapAddress := ⟨AddrFamily.other, [1], [2], [3]⟩

/-- A confirmable GET request with no options. -/
def pdu0 : CoapPDU := ⟨⟨1, CoapMsgType.CON, 1, 52⟩, [], []⟩

/-- A confirmable GET request carrying only a Token option. -/
def pduTok : CoapPDU := ⟨⟨1, CoapMsgType.CON, 1, 18⟩, [⟨11, [171]⟩], []⟩

/-- A confirmable GET request carrying unknown critical option 99. -/
def pduCON99 : CoapPDU := ⟨⟨1, CoapMsgType.CON, 1, 119⟩, [⟨99, []⟩], []⟩

/-- A non-confirmable GET request carrying unknown critical option 99. -/
def pduNON99 : CoapPDU := ⟨⟨1, CoapMsgType.NON, 1, 120⟩, [⟨99, []⟩], []⟩

/-- Queue nodes with ids 1 and 2 (both carry PDUs). -/
def nodeId1 : CoapNode := ⟨0, 0, 0, addr4, 1, pdu0⟩

/-- Queue node with id 2. -/
def nodeId2 : CoapNode := ⟨0, 0, 0, addr4, 2, pdu0⟩

/-- Helper: `coap_insert_loop` grows the list by exactly one node. -/
theorem coap_insert_loop_length (order : CoapNode → CoapNode → Int)
    (n : CoapNode) (q : List CoapNode) :
    (coap_insert_loop order n q).length = q.length + 1 := by
  induction q with
  | nil => rfl
  | cons h rest ih =>
      by_cases hc : 0 ≤ order n h <;> simp [coap_insert_loop, hc, ih]

/-- Helper: `coap_insert_node` grows the queue by exactly one node. -/
theorem coap_insert_node_length (order : CoapNode → CoapNode → Int)
    (q : List CoapNode) (n : CoapNode) :
    (coap_insert_node order q n).length = q.length + 1 := by
  cases q with
  | nil => rfl
  | cons h rest =>
      by_cases hc : order n h < 0 <;>
        simp [coap_insert_node, hc, coap_insert_loop_length]

/-- C1: the stored-id invariant `node.id = transaction_id(node.remote,
node.pdu)` fails on the send queue when `coap_send_confirmed`'s initial
transmission fails: the node is enqueued first (src/net.c:469) and only
then `node->id` is assigned from the `coap_send_impl` result
(src/net.c:471), which is `COAP_INVALID_TID` when `sendto` fails, while
`transaction_id(remote, pdu)` is 256 for this hash.  (Spec §9 flags
exactly this as a source bug against invariant 2.) -/
theorem c1_send_failure_breaks_id_invariant :
    ((coap_send_confirmed hash1 8 0 0 true false [] addr4 pdu0).1.map
        (fun n => n.id)) = [COAP_INVALID_TID] ∧
    coap_transaction_id hash1 addr4 pdu0 COAP_INVALID_TID = 256 ∧
    (256 : Nat) ≠ COAP_INVALID_TID :=
  ⟨rfl, rfl, by decide⟩

/-- C3 counterexample: with a failing initial transmission,
`coap_send_confirmed` returns `COAP_INVALID_TID` even though a node was
enqueued (the send queue grew from 0 to 1 node), refuting the claimed
"non-INVALID iff a node was enqueued". -/
theorem c3_invalid_yet_enqueued :
    (coap_send_confirmed hash1 8 0 0 true false [] addr4 pdu0).2 =
      COAP_INVALID_TID ∧
    ((coap_send_confirmed hash1 8 0 0 true false [] addr4 pdu0).1).length =
      ([] : List CoapNode).length + 1 :=
  ⟨rfl, rfl⟩

/-- C3 (amended): `coap_send_confirmed` returns non-INVALID only if a
node was enqueued; whenever node allocation succeeds the send queue
grows by exactly one node (even when the transmission fails and
`COAP_INVALID_TID` is returned); when allocation fails nothing is
enqueued and `COAP_INVALID_TID` is returned. -/
theorem c3_send_confirmed_enqueue (hash : List Nat → List Nat → List Nat)
    (tps now r : Nat) (allocOk sendOk : Bool) (q : List CoapNode)
    (dst : CoapAddress) (pdu : CoapPDU) :
    ((coap_send_confirmed hash tps now r allocOk sendOk q dst pdu).2 ≠
        COAP_INVALID_TID →
      (coap_send_confirmed hash tps now r allocOk sendOk q dst pdu).1.length =
        q.length + 1) ∧
    (allocOk = true →
      (coap_send_confirmed hash tps now r allocOk sendOk q dst pdu).1.length =
        q.length + 1) ∧
    (allocOk = false →
      coap_send_confirmed hash tps now r allocOk sendOk q dst pdu =
        (q, COAP_INVALID_TID)) := by
  cases allocOk with
  | false => simp [coap_send_confirmed]
  | true => simp [coap_send_confirmed, coap_insert_node_length]

/-- C3 witness: the amended theorem applied at a concrete input. -/
theorem c3_send_confirmed_enqueue_witness :
    (coap_send_confirmed hash1 8 0 0 true false [] addr4 pdu0).1.length =
      ([] : List CoapNode).length + 1 :=
  (c3_send_confirmed_enqueue hash1 8 0 0 true false [] addr4 pdu0).2.1 rfl

/-- C4: the id-order comparator at the failing input: for nodes with
`lhs.id = 1 < 2 = rhs.id` (both carrying PDUs) the source returns +1,
not the claimed -1, because it compares `lhs->id < lhs->id`
(src/net.c:509) — the self-comparison the spec's §9 flags as a typo. -/
theorem c4_order_transaction_id_bug :
    _order_transaction_id nodeId1 nodeId2 = 1 ∧ nodeId1.id < nodeId2.id :=
  ⟨rfl, by decide⟩

/-- C6: for every random byte `r`, the initial timeout of
`coap_send_confirmed` equals
`RESPONSE_TIMEOUT * TPS + (RESPONSE_TIMEOUT/2) * ((TPS * r) / 256)` in
exact integer arithmetic, and lies in `[base, 1.5 * base)` for
`base = RESPONSE_TIMEOUT * TPS` (the upper bound stated as
`2 * timeout < 3 * base`). -/
theorem c6_timeout_formula (tps r : Nat) (htps : 0 < tps) (hr : r ≤ 255) :
    coap_confirmed_timeout tps r =
      COAP_DEFAULT_RESPONSE_TIMEOUT * tps +
        (COAP_DEFAULT_RESPONSE_TIMEOUT / 2) * ((tps * r) / 256) ∧
    COAP_DEFAULT_RESPONSE_TIMEOUT * tps ≤ coap_confirmed_timeout tps r ∧
    2 * coap_confirmed_timeout tps r <
      3 * (COAP_DEFAULT_RESPONSE_TIMEOUT * tps) := by
  have hmask : r &&& 255 = r := by
    have h := Nat.and_pow_two_sub_one_eq_mod r 8
    norm_num at h
    omega
  have hshift : (tps * r) >>> 8 = (tps * r) / 256 := by
    have h := Nat.shiftRight_eq_div_pow (tps * r) 8
    norm_num at h
    exact h
  have hlt : (tps * r) / 256 < tps := by
    have h1 : tps * r < 256 * tps := by
      have h2 : tps * r ≤ tps * 255 := Nat.mul_le_mul_left tps hr
      have h3 : tps * 255 < tps * 256 :=
        mul_lt_mul_of_pos_left (by omega) htps
      omega
    exact Nat.div_lt_of_lt_mul h1
  unfold coap_confirmed_timeout COAP_DEFAULT_RESPONSE_TIMEOUT
  rw [hmask, hshift]
  norm_num
  omega

/-- C6 witness: the theorem applied at `TPS = 1000`, `r = 255`. -/
theorem c6_timeout_formula_witness :
    coap_confirmed_timeout 1000 255 =
      COAP_DEFAULT_RESPONSE_TIMEOUT * 1000 +
        (COAP_DEFAULT_RESPONSE_TIMEOUT / 2) * ((1000 * 255) / 256) ∧
    COAP_DEFAULT_RESPONSE_TIMEOUT * 1000 ≤ coap_confirmed_timeout 1000 255 ∧
    2 * coap_confirmed_timeout 1000 255 <
      3 * (COAP_DEFAULT_RESPONSE_TIMEOUT * 1000) :=
  c6_timeout_formula 1000 255 (by decide) (by decide)

/-- C10: for a destination whose address family is neither `AF_INET` nor
`AF_INET6`, `coap_transaction_id` leaves the output id unchanged, so
`coap_send_impl`, `coap_send` and `coap_send_confirmed` return
`COAP_INVALID_TID` even when the datagram was transmitted successfully
(`sendOk = true`). -/
theorem c10_unknown_family_invalid_tid (hash : List Nat → List Nat → List Nat)
    (tps now r : Nat) (sendq : List CoapNode) (dst : CoapAddress)
    (pdu : CoapPDU) (hf : dst.family = AddrFamily.other) :
    (∀ id0 : Nat, coap_transaction_id hash dst pdu id0 = id0) ∧
    coap_send_impl hash true dst pdu = COAP_INVALID_TID ∧
    coap_send hash true dst pdu = COAP_INVALID_TID ∧
    (coap_send_confirmed hash tps now r true true sendq dst pdu).2 =
      COAP_INVALID_TID := by
  have hid : ∀ id0 : Nat, coap_transaction_id hash dst pdu id0 = id0 := by
    intro id0
    simp [coap_transaction_id, hf]
  refine ⟨hid, ?_, ?_, ?_⟩
  · simp [coap_send_impl, hid]
  · simp [coap_send, coap_send_impl, hid]
  · simp [coap_send_confirmed, coap_send_impl, hid]

/-- C10 witness: the theorem applied to the concrete unknown-family
peer. -/
theorem c10_unknown_family_invalid_tid_witness :
    (coap_send_confirmed hash0 8 0 0 true true [] addrX pdu0).2 =
      COAP_INVALID_TID :=
  (c10_unknown_family_invalid_tid hash0 8 0 0 [] addrX pdu0 rfl).2.2.2

/-- C2: `coap_retransmit` below the maximum increments the counter,
advances the deadline by `timeout << retransmit_cnt` with the
incremented counter (stated as `timeout * 2 ^ (cnt + 1)`), re-inserts
the node into the send queue in time order and returns the node's id
(assigned from the retransmission's send result); at the maximum it
deletes the node (the queue is returned without it) and returns
`COAP_INVALID_TID`.  Consequently, `MAX_RETRANSMIT + 1 = 5` driver
ticks — each popping the node and calling `coap_retransmit` — starting
from a fresh node leave the send queue with that node removed. -/
theorem c2_retransmit_spec :
    (∀ (hash : List Nat → List Nat → List Nat) (sendOk : Bool)
        (q : List CoapNode) (node : CoapNode),
      (node.retransmit_cnt < COAP_DEFAULT_MAX_RETRANSMIT →
        ∃ node2 : CoapNode,
          node2.retransmit_cnt = node.retransmit_cnt + 1 ∧
          node2.t = node.t + node.timeout * 2 ^ (node.retransmit_cnt + 1) ∧
          node2.timeout = node.timeout ∧
          node2.remote = node.remote ∧
          node2.pdu = node.pdu ∧
          node2.id = coap_send_impl hash sendOk node.remote node.pdu ∧
          coap_retransmit hash sendOk q node =
            (coap_insert_node _order_timestamp q node2, node2.id)) ∧
      (COAP_DEFAULT_MAX_RETRANSMIT ≤ node.retransmit_cnt →
        coap_retransmit hash sendOk q node = (q, COAP_INVALID_TID))) ∧
    (∀ (hash : List Nat → List Nat → List Nat) (sendOk : Bool)
        (node : CoapNode), node.retransmit_cnt = 0 →
      retransmit_driver_step hash sendOk (retransmit_driver_step hash sendOk
        (retransmit_driver_step hash sendOk (retransmit_driver_step hash sendOk
          (retransmit_driver_step hash sendOk ([], some node))))) =
        ([], none)) := by
  constructor
  · intro hash sendOk q node
    constructor
    · intro hlt
      refine ⟨{ node with
          retransmit_cnt := node.retransmit_cnt + 1
          t := node.t + (node.timeout <<< (node.retransmit_cnt + 1))
          id := coap_send_impl hash sendOk node.remote node.pdu },
        rfl, ?_, rfl, rfl, rfl, rfl, ?_⟩
      · simp [Nat.shiftLeft_eq]
      · simp [coap_retransmit, hlt]
    · intro hge
      have hnlt : ¬ node.retransmit_cnt < COAP_DEFAULT_MAX_RETRANSMIT := by
        omega
      simp [coap_retransmit, hnlt]
  · intro hash sendOk node h0
    simp [retransmit_driver_step, coap_retransmit, coap_insert_node,
      coap_pop_next, COAP_DEFAULT_MAX_RETRANSMIT, h0]

/-- A freshly sent confirmable node (`retransmit_cnt = 0`). -/
def nodeFresh : CoapNode := ⟨16, 16, 0, addr4, 256, pdu0⟩

/-- C2 witness: five driver ticks on a concrete fresh node empty the
send queue. -/
theorem c2_retransmit_spec_witness :
    retransmit_driver_step hash0 true (retransmit_driver_step hash0 true
      (retransmit_driver_step hash0 true (retransmit_driver_step hash0 true
        (retransmit_driver_step hash0 true ([], some nodeFresh))))) =
      ([], none) :=
  c2_retransmit_spec.2 hash0 true nodeFresh rfl

/-- Helper: the do-while loop of `coap_insert_node` under the time
comparator places the new node after exactly the longest prefix whose
`t` is at most the new node's `t`. -/
theorem coap_insert_loop_timestamp_split (n : CoapNode) (q : List CoapNode) :
    coap_insert_loop _order_timestamp n q =
      q.takeWhile (fun m => decide (m.t ≤ n.t)) ++
        n :: q.dropWhile (fun m => decide (m.t ≤ n.t)) := by
  induction q with
  | nil => simp [coap_insert_loop]
  | cons h rest ih =>
      by_cases hc : h.t ≤ n.t
      · have hord : 0 ≤ _order_timestamp n h := by
          simp [_order_timestamp, show ¬ n.t < h.t by omega]
        simp [coap_insert_loop, hord, hc, ih]
      · have hord : ¬ 0 ≤ _order_timestamp n h := by
          simp [_order_timestamp, show n.t < h.t by omega]
        simp [coap_insert_loop, hord, hc]

/-- Helper: `coap_insert_node` under `_order_timestamp` splits the queue
at the first node with strictly larger `t` (ties are passed over, so
equal keys end up before the new node). -/
theorem coap_insert_node_timestamp_split (q : List CoapNode) (n : CoapNode) :
    coap_insert_node _order_timestamp q n =
      q.takeWhile (fun m => decide (m.t ≤ n.t)) ++
        n :: q.dropWhile (fun m => decide (m.t ≤ n.t)) := by
  cases q with
  | nil => simp [coap_insert_node]
  | cons h rest =>
      by_cases hc : n.t < h.t
      · have hord : _order_timestamp n h < 0 := by
          simp [_order_timestamp, hc]
        simp [coap_insert_node, hord, show ¬ h.t ≤ n.t by omega]
      · have hord : ¬ _order_timestamp n h < 0 := by
          simp [_order_timestamp, hc]
        simp [coap_insert_node, hord, coap_insert_loop_timestamp_split,
          show h.t ≤ n.t by omega]

/-- Helper: in a time-sorted queue, every node past the `t ≤ n.t` prefix
has `t` at least `n.t`. -/
theorem coap_dropWhile_timestamp_le (n : CoapNode) :
    ∀ q : List CoapNode, q.Pairwise (fun a b => a.t ≤ b.t) →
      ∀ b ∈ q.dropWhile (fun m => decide (m.t ≤ n.t)), n.t ≤ b.t := by
  intro q
  induction q with
  | nil => simp
  | cons h rest ih =>
      intro hq b hb
      rw [List.pairwise_cons] at hq
      by_cases hc : h.t ≤ n.t
      · rw [List.dropWhile_cons_of_pos (by simpa using hc)] at hb
        exact ih hq.2 b hb
      · rw [List.dropWhile_cons_of_neg (by simpa using hc)] at hb
        rcases List.mem_cons.mp hb with rfl | hb2
        · omega
        · have hhb := hq.1 b hb2
          omega

/-- Helper: time-ordered insertion preserves the non-decreasing-`t`
invariant. -/
theorem coap_insert_node_pairwise (q : List CoapNode) (n : CoapNode)
    (hq : q.Pairwise (fun a b => a.t ≤ b.t)) :
    (coap_insert_node _order_timestamp q n).Pairwise (fun a b => a.t ≤ b.t) := by
  rw [coap_insert_node_timestamp_split]
  have hq2 : (q.takeWhile (fun m => decide (m.t ≤ n.t)) ++
      q.dropWhile (fun m => decide (m.t ≤ n.t))).Pairwise
        (fun a b => a.t ≤ b.t) := by
    rw [List.takeWhile_append_dropWhile]
    exact hq
  rw [List.pairwise_append] at hq2
  obtain ⟨hT, hD, hTD⟩ := hq2
  rw [List.pairwise_append]
  refine ⟨hT, ?_, ?_⟩
  · rw [List.pairwise_cons]
    exact ⟨coap_dropWhile_timestamp_le n q hq, hD⟩
  · intro a ha b hb
    rcases List.mem_cons.mp hb with rfl | hb2
    · simpa using List.mem_takeWhile_imp ha
    · exact hTD a ha b hb2

/-- Helper: in a time-sorted queue, a node with `t` equal to the new
node's `t` lies in the prefix the insertion passes over. -/
theorem coap_takeWhile_timestamp_mem (n m : CoapNode) :
    ∀ q : List CoapNode, q.Pairwise (fun a b => a.t ≤ b.t) → m ∈ q →
      m.t = n.t → m ∈ q.takeWhile (fun x => decide (x.t ≤ n.t)) := by
  intro q
  induction q with
  | nil => intro _ hm _; cases hm
  | cons h rest ih =>
      intro hq hm ht
      rw [List.pairwise_cons] at hq
      rcases List.mem_cons.mp hm with rfl | hm2
      · rw [List.takeWhile_cons_of_pos (by simp; omega)]
        exact List.mem_cons_self _ _
      · have hh : h.t ≤ n.t := by
          have := hq.1 m hm2
          omega
        rw [List.takeWhile_cons_of_pos (by simpa using hh)]
        exact List.mem_cons_of_mem _ (ih hq.2 hm2 ht)

/-- C5: after any sequence of `coap_insert_node` calls with the
time-order comparator `_order_timestamp` on an initially empty queue,
the queue's `t` fields are non-decreasing from head to tail; and a node
whose `t` equals an existing node's `t` is inserted after it (the
existing node belongs to the prefix `l1` preceding the inserted node). -/
theorem c5_insert_time_order :
    (∀ ns : List CoapNode,
      (ns.foldl (coap_insert_node _order_timestamp) []).Pairwise
        (fun a b => a.t ≤ b.t)) ∧
    (∀ (q : List CoapNode) (n m : CoapNode),
      q.Pairwise (fun a b => a.t ≤ b.t) → m ∈ q → m.t = n.t →
      ∃ l1 l2, coap_insert_node _order_timestamp q n = l1 ++ n :: l2 ∧
        m ∈ l1) := by
  constructor
  · have hgen : ∀ (ns : List CoapNode) (q : List CoapNode),
        q.Pairwise (fun a b => a.t ≤ b.t) →
        (ns.foldl (coap_insert_node _order_timestamp) q).Pairwise
          (fun a b => a.t ≤ b.t) := by
      intro ns
      induction ns with
      | nil => intro q hq; simpa using hq
      | cons x rest ih =>
          intro q hq
          simpa using ih _ (coap_insert_node_pairwise q x hq)
    intro ns
    exact hgen ns [] (by simp)
  · intro q n m hq hm ht
    refine ⟨q.takeWhile (fun x => decide (x.t ≤ n.t)),
      q.dropWhile (fun x => decide (x.t ≤ n.t)),
      coap_insert_node_timestamp_split q n,
      coap_takeWhile_timestamp_mem n m q hq hm ht⟩

/-- Two queue nodes sharing the scheduled time `t = 5`. -/
def nodeT5a : CoapNode := ⟨5, 1, 0, addr4, 1, pdu0⟩

/-- A second node with `t = 5`. -/
def nodeT5b : CoapNode := ⟨5, 2, 0, addr4, 2, pdu0⟩

/-- C5 witness: inserting a node with an equal timestamp places it after
the existing one. -/
theorem c5_insert_time_order_witness :
    ∃ l1 l2, coap_insert_node _order_timestamp [nodeT5a] nodeT5b =
      l1 ++ nodeT5b :: l2 ∧ nodeT5a ∈ l1 :=
  c5_insert_time_order.2 [nodeT5a] nodeT5b nodeT5a (by decide) (by decide)
    (by decide)

/-- Helper: appending an option leaves the header unchanged. -/
theorem coap_add_option_hdr (p : CoapPDU) (t : Nat) (v : List Nat) :
    (coap_add_option p t v).hdr = p.hdr := rfl

/-- Helper: appending payload leaves the header unchanged. -/
theorem coap_add_data_hdr (p : CoapPDU) (d : List Nat) :
    (coap_add_data p d).hdr = p.hdr := rfl

/-- Helper: appending an option appends it to the option list. -/
theorem coap_add_option_options (p : CoapPDU) (t : Nat) (v : List Nat) :
    (coap_add_option p t v).options = p.options ++ [⟨t, v⟩] := rfl

/-- Helper: appending payload leaves the option list unchanged. -/
theorem coap_add_data_options (p : CoapPDU) (d : List Nat) :
    (coap_add_data p d).options = p.options := rfl

/-- Helper: copying a list of options leaves the header unchanged. -/
theorem coap_add_options_foldl_hdr (l : List CoapOption) :
    ∀ p : CoapPDU,
      (l.foldl (fun p o => coap_add_option p o.type o.value) p).hdr = p.hdr := by
  induction l with
  | nil => intro p; rfl
  | cons o rest ih =>
      intro p
      rw [List.foldl_cons, ih]
      rfl

/-- Helper: copying a list of options appends it to the option list
(in order). -/
theorem coap_add_options_foldl_options (l : List CoapOption) :
    ∀ p : CoapPDU,
      (l.foldl (fun p o => coap_add_option p o.type o.value) p).options =
        p.options ++ l := by
  induction l with
  | nil => intro p; simp
  | cons o rest ih =>
      intro p
      rw [List.foldl_cons, ih]
      simp [coap_add_option]

/-- Helper: the header of an error response: default version, ACK for a
confirmable request and NON otherwise, the given code, and the
request's message id. -/
theorem coap_new_error_response_hdr (hasPhrase : Bool) (request : CoapPDU)
    (code : Nat) (opts : CoapOptFilter) :
    (coap_new_error_response hasPhrase request code opts).hdr =
      ⟨COAP_DEFAULT_VERSION,
        if request.hdr.type = CoapMsgType.CON then CoapMsgType.ACK
        else CoapMsgType.NON,
        code, request.hdr.id⟩ := by
  cases hasPhrase <;>
    simp [coap_new_error_response, coap_add_options_foldl_hdr,
      coap_add_option_hdr, coap_add_data_hdr]

/-- C7: in the dispatch loop, a received CON whose critical-option check
fails produces exactly one event — a `coap_send` of the freshly built
error response to the sender — whose PDU carries code 4.02
(`COAP_RESPONSE_CODE 402`) and type ACK, and the message is never
routed to `handle_request` or `handle_response`; a received NON whose
check fails produces no event at all (silently dropped). -/
theorem c7_dispatch_unknown_critical (hasPhrase hasHandler : Bool)
    (known f : CoapOptFilter) (sendq : List CoapNode) (rcvd : CoapNode)
    (hv : rcvd.pdu.hdr.version = COAP_DEFAULT_VERSION)
    (hbad : (coap_option_check_critical known rcvd.pdu f).1 = false) :
    (rcvd.pdu.hdr.type = CoapMsgType.CON →
      coap_dispatch_step hasPhrase hasHandler known f sendq rcvd =
        (sendq,
          coap_error_response_opts
            (coap_option_check_critical known rcvd.pdu f).2,
          [DispatchEvent.sentPdu rcvd.remote
            (coap_new_error_response hasPhrase rcvd.pdu (COAP_RESPONSE_CODE 402)
              (coap_option_check_critical known rcvd.pdu f).2)]) ∧
      (coap_new_error_response hasPhrase rcvd.pdu (COAP_RESPONSE_CODE 402)
          (coap_option_check_critical known rcvd.pdu f).2).hdr.code =
        COAP_RESPONSE_CODE 402 ∧
      (coap_new_error_response hasPhrase rcvd.pdu (COAP_RESPONSE_CODE 402)
          (coap_option_check_critical known rcvd.pdu f).2).hdr.type =
        CoapMsgType.ACK) ∧
    (rcvd.pdu.hdr.type = CoapMsgType.NON →
      coap_dispatch_step hasPhrase hasHandler known f sendq rcvd =
        (sendq, (coap_option_check_critical known rcvd.pdu f).2, [])) := by
  constructor
  · intro hcon
    refine ⟨?_, ?_, ?_⟩
    · simp [coap_dispatch_step, hv, hcon, hbad]
    · simp [coap_new_error_response_hdr]
    · simp [coap_new_error_response_hdr, hcon]
  · intro hnon
    simp [coap_dispatch_step, hv, hnon, hbad]

/-- Helper: any response-handler invocation emitted by the upper-layer
routing carries exactly the detached sender node's PDU. -/
theorem dispatch_upper_responseHandler_sent (hasHandler : Bool)
    (sent : Option CoapNode) (rcvd : CoapNode)
    (hta : rcvd.pdu.hdr.type ≠ CoapMsgType.CON) :
    ∀ (remote : CoapAddress) (sp : Option CoapPDU) (rp : CoapPDU) (i : Nat),
      DispatchEvent.responseHandler remote sp rp i ∈
        dispatch_upper hasHandler sent rcvd →
      sp = sent.map (fun n => n.pdu) := by
  intro remote sp rp i h
  by_cases h1 : COAP_MESSAGE_IS_REQUEST rcvd.pdu.hdr
  · simp [dispatch_upper, handle_locally, h1] at h
  · by_cases h2 : COAP_MESSAGE_IS_RESPONSE rcvd.pdu.hdr
    · cases hasHandler with
      | false => simp [dispatch_upper, handle_locally, handle_response,
          h1, h2, hta] at h
      | true =>
          simp [dispatch_upper, handle_locally, handle_response,
            h1, h2, hta] at h
          exact h.2.1
    · simp [dispatch_upper, handle_locally, h1, h2] at h

/-- C8: when `coap_dispatch` processes an ACK, the matching node (if
any) is removed from the send queue — the queue returned by the
iteration is the post-removal queue, established before any events are
emitted — an empty ACK (code 0) produces no events (in particular the
response handler is never invoked for it), and any response-handler
invocation receives precisely the PDU of the node the removal detached. -/
theorem c8_ack_removal_before_callback (hasPhrase hasHandler : Bool)
    (known f : CoapOptFilter) (sendq : List CoapNode) (rcvd : CoapNode)
    (hv : rcvd.pdu.hdr.version = COAP_DEFAULT_VERSION)
    (ht : rcvd.pdu.hdr.type = CoapMsgType.ACK) :
    (coap_dispatch_step hasPhrase hasHandler known f sendq rcvd).1 =
      (match coap_remove_from_queue sendq rcvd.id with
        | some (q2, _) => q2
        | none => sendq) ∧
    (rcvd.pdu.hdr.code = 0 →
      (coap_dispatch_step hasPhrase hasHandler known f sendq rcvd).2.2 = []) ∧
    (∀ (remote : CoapAddress) (sp : Option CoapPDU) (rp : CoapPDU) (i : Nat),
      DispatchEvent.responseHandler remote sp rp i ∈
        (coap_dispatch_step hasPhrase hasHandler known f sendq rcvd).2.2 →
      sp = (coap_remove_from_queue sendq rcvd.id).map (fun x => x.2.pdu)) := by
  have hta : rcvd.pdu.hdr.type ≠ CoapMsgType.CON := by
    rw [ht]
    intro hx
    cases hx
  rcases hrem : coap_remove_from_queue sendq rcvd.id with _ | ⟨q2, m⟩ <;>
    by_cases hc : rcvd.pdu.hdr.code = 0
  · refine ⟨?_, ?_, ?_⟩ <;>
      simp [coap_dispatch_step, hv, ht, hrem, hc]
  · refine ⟨?_, ?_, ?_⟩
    · simp [coap_dispatch_step, hv, ht, hrem, hc]
    · intro hx
      exact absurd hx hc
    · intro remote sp rp i h
      simp [coap_dispatch_step, hv, ht, hrem, hc] at h
      simpa using
        dispatch_upper_responseHandler_sent hasHandler none rcvd hta
          remote sp rp i h
  · refine ⟨?_, ?_, ?_⟩ <;>
      simp [coap_dispatch_step, hv, ht, hrem, hc]
  · refine ⟨?_, ?_, ?_⟩
    · simp [coap_dispatch_step, hv, ht, hrem, hc]
    · intro hx
      exact absurd hx hc
    · intro remote sp rp i h
      simp [coap_dispatch_step, hv, ht, hrem, hc] at h
      simpa using
        dispatch_upper_responseHandler_sent hasHandler (some m) rcvd hta
          remote sp rp i h

/-- A received CON node carrying unknown critical option 99. -/
def rcvdCON99 : CoapNode := ⟨0, 0, 0, addr4, 5, pduCON99⟩

/-- C7 witness: the theorem applied to the concrete CON with option 99
against an empty known-option filter. -/
theorem c7_dispatch_unknown_critical_witness :
    coap_dispatch_step true true [] [] [] rcvdCON99 =
      ([],
        coap_error_response_opts
          (coap_option_check_critical [] rcvdCON99.pdu []).2,
        [DispatchEvent.sentPdu rcvdCON99.remote
          (coap_new_error_response true rcvdCON99.pdu (COAP_RESPONSE_CODE 402)
            (coap_option_check_critical [] rcvdCON99.pdu []).2)]) :=
  ((c7_dispatch_unknown_critical true true [] [] [] rcvdCON99 rfl
    (by decide)).1 rfl).1

/-- An outstanding confirmable node with id 7. -/
def nodeS7 : CoapNode := ⟨10, 16, 0, addr4, 7, pdu0⟩

/-- A received empty ACK (code 0) with id 7. -/
def rcvdAck7 : CoapNode := ⟨1, 0, 0, addr4, 7, ⟨⟨1, CoapMsgType.ACK, 0, 99⟩, [], []⟩⟩

/-- C8 witness: a concrete empty ACK matching the outstanding node
produces no events. -/
theorem c8_ack_removal_before_callback_witness :
    (coap_dispatch_step true true [] [] [nodeS7] rcvdAck7).2.2 = [] :=
  (c8_ack_removal_before_callback true true [] [] [nodeS7] rcvdAck7 rfl
    rfl).2.1 rfl

/-- Helper: after `coap_new_error_response` prepares the selector
(clear Content-Type, force-set Token), an option number is selected
iff it fits the filter width and is either the Token or was named in
`opts` (and is not Content-Type). -/
theorem coap_getb_error_opts_iff (opts : CoapOptFilter) (x : Nat) :
    coap_option_getb (coap_error_response_opts opts) x = 1 ↔
      (x ≤ COAP_MAX_OPT ∧ (x = COAP_OPTION_TOKEN ∨
        (x ∈ opts ∧ x ≠ COAP_OPTION_CONTENT_TYPE))) := by
  unfold coap_option_getb coap_error_response_opts coap_option_setb
    coap_option_clrb
  by_cases h1 : COAP_MAX_OPT < x <;>
    by_cases h2 : x = COAP_OPTION_TOKEN <;>
      by_cases h3 : x ∈ opts <;>
        by_cases h4 : x = COAP_OPTION_CONTENT_TYPE <;>
          simp_all [List.mem_filter, COAP_MAX_OPT, COAP_OPTION_TOKEN,
            COAP_OPTION_CONTENT_TYPE] <;>
            omega

/-- C9 (amended): iterating the options of an error response built from
request `R` yields a Content-Type = text/plain option *first* (when an
error phrase is enabled), followed by exactly the options of `R` whose
number is the Token or is named in `opts` (Content-Type excluded,
numbers beyond the filter width excluded), in `R`'s stored order — the
Content-Type option comes first, not last, and the Token is not moved
to the front. -/
theorem c9_error_response_options (hasPhrase : Bool) (request : CoapPDU)
    (code : Nat) (opts : CoapOptFilter) :
    (coap_new_error_response hasPhrase request code opts).options =
      (if hasPhrase then
        [⟨COAP_OPTION_CONTENT_TYPE,
          coap_encode_var_bytes COAP_MEDIATYPE_TEXT_PLAIN⟩]
      else []) ++
      request.options.filter (fun o =>
        decide (o.type ≤ COAP_MAX_OPT ∧ (o.type = COAP_OPTION_TOKEN ∨
          (o.type ∈ opts ∧ o.type ≠ COAP_OPTION_CONTENT_TYPE)))) := by
  have hfilt : request.options.filter
      (fun o => decide (coap_option_getb (coap_error_response_opts opts)
        o.type = 1)) =
      request.options.filter (fun o =>
        decide (o.type ≤ COAP_MAX_OPT ∧ (o.type = COAP_OPTION_TOKEN ∨
          (o.type ∈ opts ∧ o.type ≠ COAP_OPTION_CONTENT_TYPE)))) := by
    apply List.filter_congr
    intro o _
    rw [decide_eq_decide]
    exact coap_getb_error_opts_iff opts o.type
  cases hasPhrase <;>
    simp [coap_new_error_response, hfilt, coap_add_options_foldl_options,
      coap_add_option_options, coap_add_data_options]

/-- C9 counterexample: for a confirmable request whose only option is a
Token, with the error phrase enabled and an empty selector, the built
response's options are `[Content-Type, Token]`, not the claimed
`[Token, ..., Content-Type]` order. -/
theorem c9_error_response_order_counterexample :
    (coap_new_error_response true pduTok (COAP_RESPONSE_CODE 402) []).options ≠
      spec_error_response_options true pduTok [] := by decide
